import Mathlib

/-!
Shallow embedding of the BlackMamba module framework (src/blackmamba.js):
a registry of modules and builders, descriptor-driven registration,
dependency resolution, and command dispatch.

Modelling conventions:
* JavaScript values manipulated by the framework are modelled by `JsVal`
  (the fragment needed: undefined, booleans, numbers, strings).
* Stateful methods are functions `BM → BM × Except Err α`: a thrown
  exception carries the state at the throw point, like the JS heap
  (side effects performed before a throw are not rolled back).
* The two external collaborators (the descriptor loader behind
  `loadJson` and dynamic `import`) are an explicit environment `Env`.
* Recursion through `register` is fuel-indexed; `Err.outOfFuel` models
  stack exhaustion on cyclic descriptor references.
* Descriptor-loader invocations are recorded in `BM.loadTrace`
  (mirroring the `console.log` in `loadPackage`), and each `build()`
  mints a fresh `Nat` nonce modelling JS object identity of the
  freshly allocated module.
-/

namespace BlackMamba

/-- The fragment of JavaScript values the framework manipulates. -/
inductive JsVal : Type where
  | undefined : JsVal
  | bool (b : Bool) : JsVal
  | num (n : Int) : JsVal
  | str (s : String) : JsVal
deriving DecidableEq, Repr

/-- JavaScript truthiness for `JsVal` (used by `if ( defaultApp )`). -/
def truthy : JsVal → Bool
  | .undefined => false
  | .bool b => b
  | .num n => n ≠ 0
  | .str s => s ≠ ""

/-- Runtime failures, one constructor per distinct failure site in the source. -/
inductive Err : Type where
  /-- `isString` / `hasValue` throw: parameter must be a non-empty string. -/
  | validation (property : String) : Err
  /-- A JavaScript TypeError (property access on undefined, call of a non-function, …). -/
  | typeError (msg : String) : Err
  /-- A JavaScript ReferenceError: an undeclared identifier was read. -/
  | referenceError (name : String) : Err
  /-- `loadPackage` failed: descriptor path missing or unloadable. -/
  | packageLoad (path : String) : Err
  /-- `import` failed: source module missing or failed to load. -/
  | sourceImport (path : String) : Err
  /-- `#parseDependencies`: "name" is not defined for a dependency. -/
  | packageError (packageID : String) (depId : String) : Err
  /-- `register`: package has no source or builder. -/
  | noSourceOrBuilder (id : String) : Err
  /-- `app[cmd]` is not a function. -/
  | notAFunction (cmd : String) : Err
  /-- Fuel exhaustion, modelling unbounded recursion (cyclic references). -/
  | outOfFuel : Err
deriving DecidableEq, Repr

/-- A dependency spec in a descriptor: a bare string or an object
`\x7b pkg|source, name, method, build \x7d` (JSON shapes only). -/
inductive DepSpec : Type where
  | strSpec (s : String) : DepSpec
  | objSpec (pkg source name method : Option String) (build : Option Bool) : DepSpec
deriving DecidableEq, Repr

/-- The `dependencies` field of a descriptor; `none` sub-fields model absent keys. -/
structure DepsField : Type where
  packages : Option (List DepSpec) := none
  sources : Option (List DepSpec) := none
deriving DecidableEq, Repr

/-- A parsed package descriptor (the JSON shape `loadJson` returns). -/
structure Descriptor : Type where
  name : Option String := none
  source : Option String := none
  builder : Option String := none
  factorySettings : JsVal := .undefined
  dependencies : Option DepsField := none
deriving DecidableEq, Repr

/-- A command handler on a built module: `data ↦ result` (commands of the
modules produced by factories are pure value-level functions). -/
def CmdFn : Type := JsVal → Except Err JsVal

/-- A built module's command surface: string-keyed callable members. -/
structure UserMod : Type where
  cmds : List (String × CmdFn)

/-- A value stored in the `#modules` map. -/
inductive MVal : Type where
  /-- One of the `() => directory` closures installed by the constructor. -/
  | getter (value : String) : MVal
  /-- One of the bound methods installed by the constructor (`execute`, `register`, …). -/
  | builtin (method : String) : MVal
  /-- A module built by a Builder; `ref` is its allocation identity. -/
  | user (ref : Nat) (m : UserMod) : MVal

/-- A resolved dependency map (`deps` object handed to `inject`). -/
def DepMap : Type := List (String × MVal)

/-- A three-layer factory export: `(dependencies) => (settings) => module`.
The first argument is `none` when the dependencies slot was never injected. -/
def Factory : Type := Option DepMap → JsVal → Except Err UserMod

/-- A dynamically imported source module; `factory` is its `factory` export
(`none` models a module without that export). -/
structure SourceMod : Type where
  factory : Option Factory

/-- The Builder closure of `BlackMamba.createBuilder`: the wrapped factory and
the two mutable slots. -/
structure Builder : Type where
  factory : Option Factory
  dependencies : Option DepMap := none
  settings : JsVal := .undefined

/-- `BlackMamba.createBuilder( factory )`: fresh Builder, empty slots. -/
def createBuilder (factory : Option Factory) : Builder :=
  { factory := factory }

/-- `inject ( factoryDependencies )`: replaces the dependencies slot, returns self. -/
def Builder.inject (b : Builder) (factoryDependencies : DepMap) : Builder :=
  { b with dependencies := some factoryDependencies }

/-- `applySettings ( factorySettings )`: replaces the settings slot, returns self. -/
def Builder.applySettings (b : Builder) (factorySettings : JsVal) : Builder :=
  { b with settings := factorySettings }

/-- The external collaborators: the descriptor loader (`loadJson`, keyed by the
resolved descriptor path) and the dynamic import (keyed by the resolved source
path). `none` models a load failure. -/
structure Env : Type where
  loadJson : String → Option Descriptor
  importFile : String → Option SourceMod

/-- Insertion-ordered map lookup (`Map.prototype.get`). -/
def mfind {α : Type} : List (String × α) → String → Option α
  | [], _ => none
  | (k', v) :: rest, k => if k' = k then some v else mfind rest k

/-- `Map.prototype.has`. -/
def mhas {α : Type} (m : List (String × α)) (k : String) : Bool :=
  (mfind m k).isSome

/-- `Map.prototype.set`: overwrite in place, or append preserving insertion order. -/
def mset {α : Type} : List (String × α) → String → α → List (String × α)
  | [], k, v => [(k, v)]
  | (k', v') :: rest, k, v =>
      if k' = k then (k, v) :: rest else (k', v') :: mset rest k v

/-- `Set.prototype.add` on an insertion-ordered list of ids. -/
def sadd (s : List String) (x : String) : List String :=
  if s.contains x then s else s ++ [x]

/-- The per-instance state: the three registry tables, the source cache, the
directory configuration, the default-fallback triple, plus the descriptor-load
trace and the allocation nonce (modelling instrumentation, see module header). -/
structure BM : Type where
  modules : List (String × MVal)
  builders : List (String × Builder)
  packages : List String
  sources : List (String × SourceMod)
  rootDirectory : String
  sourcesDirectory : String
  packagesDirectory : String
  defaultApp : JsVal
  defaultCmd : JsVal
  defaultData : JsVal
  loadTrace : List String
  nonce : Nat

instance : Inhabited BM :=
  ⟨{ modules := [], builders := [], packages := [], sources := []
     rootDirectory := "", sourcesDirectory := "", packagesDirectory := ""
     defaultApp := .undefined, defaultCmd := .undefined, defaultData := .undefined
     loadTrace := [], nonce := 0 }⟩

/-- The computation type of the stateful methods: state in, state out plus an
outcome. A thrown error keeps the state reached at the throw point. -/
def BMM (α : Type) : Type := BM → BM × Except Err α

/-- Sequencing in `BMM`. -/
def bmBind {α β : Type} (x : BMM α) (f : α → BMM β) : BMM β := fun st =>
  match x st with
  | (st', .ok a) => f a st'
  | (st', .error e) => (st', .error e)

/-- Return in `BMM`. -/
def bmPure {α : Type} (a : α) : BMM α := fun st => (st, .ok a)

/-- Throw in `BMM`. -/
def bmThrow {α : Type} (e : Err) : BMM α := fun st => (st, .error e)

/-- Read the state. -/
def bmGet : BMM BM := fun st => (st, .ok st)

/-- Replace the state. -/
def bmSet (st' : BM) : BMM Unit := fun _ => (st', .ok ())

/-- Lift a pure fallible computation. -/
def bmLift {α : Type} (x : Except Err α) : BMM α := fun st => (st, x)

/-- A `try`: reify the outcome, keeping the state reached either way. -/
def bmTry {α : Type} (x : BMM α) : BMM (Except Err α) := fun st =>
  match x st with
  | (st', r) => (st', .ok r)

/-- `isString ( property, value )`: throws unless the value is a string. -/
def isString (property : String) (value : JsVal) : Except Err Unit :=
  match value with
  | .str _ => .ok ()
  | _ => .error (.validation property)

/-- `hasValue ( property, value )`: throws when `value.length === 0`.
On non-strings `value.length` is `undefined`, which is not `=== 0`, so they pass. -/
def hasValue (property : String) (value : JsVal) : Except Err Unit :=
  match value with
  | .str s => if s.length = 0 then .error (.validation property) else .ok ()
  | _ => .ok ()

/-- The construction configuration: `none` directory fields model absent keys
(JS default parameters fire on `undefined`); the default triple is any `JsVal`. -/
structure Config : Type where
  rootDirectory : Option String := none
  sourcesDirectory : Option String := none
  packagesDirectory : Option String := none
  defaultApp : JsVal := .undefined
  defaultCmd : JsVal := .undefined
  defaultData : JsVal := .undefined

/-- The module table installed by the constructor before the `defaultApp` check. -/
def initialModules (rootDirectory sourcesDirectory packagesDirectory : String) :
    List (String × MVal) :=
  [("getRootDirectory", .getter rootDirectory),
   ("getSourcesDirectory", .getter sourcesDirectory),
   ("getPackagesDirectory", .getter packagesDirectory),
   ("execute", .builtin "execute"),
   ("register", .builtin "register"),
   ("hasNotModule", .builtin "hasNotModule"),
   ("getModule", .builtin "getModule")]

/-- The `BlackMamba` constructor. Validation of the default triple happens only
under `if ( defaultApp )`, and only `defaultApp` and `defaultCmd` are checked
(the property labels carry the source's typos "defaulApp" / "defaulCmd"). -/
def mkBlackMamba (cfg : Config) : Except Err BM :=
  let rootDirectory := cfg.rootDirectory.getD ""
  let sourcesDirectory := cfg.sourcesDirectory.getD "./sources"
  let packagesDirectory := cfg.packagesDirectory.getD "./packages"
  let modules0 := initialModules rootDirectory sourcesDirectory packagesDirectory
  let base : BM :=
    { modules := modules0, builders := [], packages := [], sources := []
      rootDirectory := rootDirectory, sourcesDirectory := sourcesDirectory
      packagesDirectory := packagesDirectory
      defaultApp := cfg.defaultApp, defaultCmd := cfg.defaultCmd
      defaultData := cfg.defaultData, loadTrace := [], nonce := 0 }
  if truthy cfg.defaultApp then
    match isString "defaulApp" cfg.defaultApp with
    | .error e => .error e
    | .ok _ =>
      match hasValue "defaultApp" cfg.defaultApp with
      | .error e => .error e
      | .ok _ =>
        match isString "defaulCmd" cfg.defaultCmd with
        | .error e => .error e
        | .ok _ =>
          match hasValue "defaultCmd" cfg.defaultCmd with
          | .error e => .error e
          | .ok _ =>
            .ok { base with
                  modules := mset base.modules "executeWithFallback"
                    (.builtin "executeWithFallback") }
  else .ok base

/-- The value `register` resolves to: a built module, or the Builder itself
when `build` is false on the source path. -/
inductive RegRes : Type where
  | module (m : MVal) : RegRes
  | builder (b : Builder) : RegRes

/-- Truthiness of an optional string field (`if ( source )`, `if ( builder )`):
an absent field and the empty string are both falsy. -/
def truthyOpt : Option String → Option String
  | some s => if s = "" then none else some s
  | none => none

/-- Template-literal rendering of a dependency spec (only used in error text). -/
def specText : DepSpec → String
  | .strSpec s => s
  | .objSpec _ _ _ _ _ => "[object Object]"

/-- String coercion of a possibly-undefined identifier. -/
def jsShow : Option String → String
  | some s => s
  | none => "undefined"

/-- The record `#parseDependencies` returns: `\x7b id, name, method, build \x7d`. -/
structure ParsedDep : Type where
  id : Option String
  name : String
  method : Option String
  build : Option Bool
deriving DecidableEq, Repr

/-- `#parseDependencies ( packageID, dependency )`. Both call sites in
`#getDependencies` pass a single argument (the spec itself lands in
`packageID`, rendered here by `specText`), leaving `dependency` undefined. -/
def parseDependencies (packageID : String) (dependency : Option DepSpec) :
    Except Err ParsedDep :=
  match dependency with
  | none =>
      -- typeof undefined is not "string", so the object branch runs and
      -- reading `dependency.pkg` on undefined throws
      .error (.typeError "Cannot read properties of undefined (reading pkg)")
  | some (.strSpec s) =>
      -- id = dependency; name = dependency; method and build stay undefined
      .ok { id := some s, name := s, method := none, build := none }
  | some (.objSpec pkg source name method _build) =>
      -- id = dependency.pkg || dependency.source (|| yields the second operand
      -- unchanged when the first is falsy, so an absent pkg falls back to source)
      let id : Option String :=
        match pkg with
        | some s => if s = "" then source else some s
        | none => source
      match name with
      | none => .error (.packageError packageID (jsShow id))
      | some n =>
          -- build = dependency.build || true: true when dependency.build is true
          -- and also when it is false or undefined, hence always true
          .ok { id := id, name := n, method := method, build := some true }

/-- `path.startsWith( "/" )`, computed on the character list: true exactly when
the first character is a slash. -/
def startsWithSlash (s : String) : Bool :=
  match s.data with
  | [] => false
  | c :: _ => c = '/'

/-- Descriptor path resolution inside `loadPackage`. -/
def resolvePackagePath (packagesDirectory path : String) : String :=
  if startsWithSlash path then packagesDirectory ++ path ++ ".json"
  else packagesDirectory ++ "/" ++ path ++ ".json"

/-- `loadPackage ( path )`: resolve the descriptor path, hand it to the
descriptor loader (recording the invocation), add the id to the loaded set on
success, and wrap failures. -/
def loadPackage (env : Env) (path : String) : BMM Descriptor := fun st =>
  let packagePath := resolvePackagePath st.packagesDirectory path
  -- console.log(`loading package ...`): every loader invocation is recorded
  let st := { st with loadTrace := st.loadTrace ++ [packagePath] }
  match env.loadJson packagePath with
  | some pkg => ({ st with packages := sadd st.packages path }, .ok pkg)
  | none => (st, .error (.packageLoad packagePath))

/-- `import ( sourcePath )`: cached by `sourcePath`; the actual load resolves
`sourcesDirectory + sourcePath`. -/
def importSource (env : Env) (sourcePath : String) : BMM SourceMod := fun st =>
  match mfind st.sources sourcePath with
  | some source => (st, .ok source)
  | none =>
    match env.importFile (st.sourcesDirectory ++ sourcePath) with
    | some source =>
        ({ st with sources := mset st.sources sourcePath source }, .ok source)
    | none => (st, .error (.sourceImport sourcePath))

/-- `#registerBuilder ( id, factory, factoryDependencies )`. -/
def registerBuilder (id : String) (factory : Option Factory)
    (factoryDependencies : DepMap) : BMM Builder := fun st =>
  let B := (createBuilder factory).inject factoryDependencies
  ({ st with builders := mset st.builders id B }, .ok B)

/-- `build ()` on a Builder: `factory( dependencies )( settings )`. The fresh
nonce models the identity of the newly allocated module object. -/
def buildModule (B : Builder) : BMM MVal := fun st =>
  match B.factory with
  | none => (st, .error (.typeError "factory is not a function"))
  | some f =>
    match f B.dependencies B.settings with
    | .error e => (st, .error e)
    | .ok m => ({ st with nonce := st.nonce + 1 }, .ok (MVal.user st.nonce m))

/-- The second half of `#createModuleFromBuilder`, once the referenced Builder
has been ensured: look the Builder up, apply the settings (mutating the shared
Builder object aliased by the map entry), build, and store the module. -/
def applyAndBuild (moduleID builderId : String) (factorySettings : JsVal) :
    BMM MVal := fun st =>
  -- const Builder = this.#builders.get( builderId )
  match mfind st.builders builderId with
  | none =>
      -- Builder is undefined, so Builder.applySettings throws
      (st, .error (.typeError "Builder.applySettings is not a function"))
  | some B =>
    -- const mod = Builder.applySettings( factorySettings ).build()
    match buildModule (B.applySettings factorySettings)
        { st with builders := mset st.builders builderId (B.applySettings factorySettings) } with
    | (st, .error e) => (st, .error e)
    | (st, .ok m) =>
      -- this.#modules.set( moduleID, mod )
      ({ st with modules := mset st.modules moduleID m }, .ok m)

/-- The `sources` loop of `#getDependencies`. Its body calls
`#parseDependencies` with a single argument, so every iteration fails before
binding anything; had the parse succeeded, the `name = name || method`
reassignment of a `const` binding would throw anyway. -/
def depSourcesLoop (env : Env) (deps : DepMap) : List DepSpec → BMM DepMap
  | [] => bmPure deps
  | source :: _rest => fun st =>
    -- const \x7b id, name, method \x7d = this.#parseDependencies( source )
    match parseDependencies (specText source) none with
    | .error e => (st, .error e)
    | .ok p =>
      -- const mod = await this.import( id )
      match importSource env (jsShow p.id) st with
      | (st, .error e) => (st, .error e)
      | (st, .ok _mod) =>
        -- name = name || method: `name` was declared const, so the
        -- reassignment throws before deps[name] is ever written
        (st, .error (.typeError "Assignment to constant variable"))

mutual

/-- `register ( id, build = true )`: return a cached module/builder when the
descriptor was already loaded, else load the descriptor and follow its
source or builder path. -/
def register (fuel : Nat) (env : Env) (id : String) (build : Bool) : BMM RegRes :=
  match fuel with
  | 0 => bmThrow .outOfFuel
  | fuel + 1 => fun st =>
    -- lets try first to get an already registered module or builder
    let cached : Option RegRes :=
      if st.packages.contains id then
        if build then (mfind st.modules id).map RegRes.module
        else (mfind st.builders id).map RegRes.builder
      else none
    match cached with
    | some moduleOrBuilder => (st, .ok moduleOrBuilder)
    | none =>
      -- then if it is not yet registered
      match loadPackage env id st with
      | (st, .error e) => (st, .error e)
      | (st, .ok pkg) =>
        match truthyOpt pkg.source with
        | some source =>
          -- const deps = await this.#getDependencies( dependencies )
          match getDependencies fuel env pkg.dependencies st with
          | (st, .error e) => (st, .error e)
          | (st, .ok deps) =>
            -- const \x7b factory \x7d = await this.import( source )
            match importSource env source st with
            | (st, .error e) => (st, .error e)
            | (st, .ok smod) =>
              -- const Builder = this.#registerBuilder( id, factory, deps )
              match registerBuilder id smod.factory deps st with
              | (st, .error e) => (st, .error e)
              | (st, .ok B) =>
                if build then
                  match createModuleFromBuilder fuel env id id pkg.factorySettings st with
                  | (st, .error e) => (st, .error e)
                  | (st, .ok m) => (st, .ok (RegRes.module m))
                else (st, .ok (RegRes.builder B))
        | none =>
          match truthyOpt pkg.builder with
          | some builder =>
            match createModuleFromBuilder fuel env id builder pkg.factorySettings st with
            | (st, .error e) => (st, .error e)
            | (st, .ok m) => (st, .ok (RegRes.module m))
          | none => (st, .error (.noSourceOrBuilder id))
termination_by structural fuel

/-- `#createModuleFromBuilder ( moduleID, builderId, factorySettings )`: ensure
the referenced Builder is registered (with `build = false` when absent), then
apply the settings and build (`applyAndBuild`, the method's second half). -/
def createModuleFromBuilder (fuel : Nat) (env : Env) (moduleID builderId : String)
    (factorySettings : JsVal) : BMM MVal :=
  match fuel with
  | 0 => bmThrow .outOfFuel
  | fuel + 1 => fun st =>
    -- if ( !this.#builders.has( builderId ) ) await this.register( builderId, false )
    if mhas st.builders builderId then
      applyAndBuild moduleID builderId factorySettings st
    else
      match register fuel env builderId false st with
      | (st', .error e) => (st', .error e)
      | (st', .ok _) => applyAndBuild moduleID builderId factorySettings st'
termination_by structural fuel

/-- `#getDependencies ( \x7b packages = [], sources = [] \x7d = \x7b\x7d )`. -/
def getDependencies (fuel : Nat) (env : Env) (dependencies : Option DepsField) :
    BMM DepMap :=
  match fuel with
  | 0 => bmThrow .outOfFuel
  | fuel + 1 => fun st =>
    let packagesL := (dependencies.bind DepsField.packages).getD []
    let sourcesL := (dependencies.bind DepsField.sources).getD []
    if packagesL.isEmpty then
      -- allow to work with none BlackMamba source modules
      if sourcesL.isEmpty then (st, .ok []) else depSourcesLoop env [] sourcesL st
    else
      match depPackagesLoop fuel env [] packagesL st with
      | (st, .error e) => (st, .error e)
      | (st, .ok deps) =>
          if sourcesL.isEmpty then (st, .ok deps) else depSourcesLoop env deps sourcesL st
termination_by structural fuel

/-- The `packages` loop of `#getDependencies`. The body calls
`#parseDependencies` with a single argument (so parsing always throws on
undefined); had it parsed, `deps[name] = modules.get( id )` reads the
undeclared identifier `modules`, so no iteration can complete either way. -/
def depPackagesLoop (fuel : Nat) (env : Env) (deps : DepMap) (specs : List DepSpec) :
    BMM DepMap :=
  match fuel with
  | 0 => bmThrow .outOfFuel
  | fuel + 1 =>
    match specs with
    | [] => bmPure deps
    | pkg :: _rest => fun st =>
      -- const \x7b id, name, build \x7d = this.#parseDependencies( pkg )
      match parseDependencies (specText pkg) none with
      | .error e => (st, .error e)
      | .ok p =>
        -- if ( !this.#modules.has( id ) ) await this.register( id, build );
        -- then deps[name] = modules.get( id ) reads the undeclared
        -- identifier `modules` and throws a ReferenceError
        if (match p.id with | some i => mhas st.modules i | none => false) then
          (st, .error (.referenceError "modules"))
        else
          match register fuel env (p.id.getD "") (p.build.getD true) st with
          | (st', .ok _) => (st', .error (.referenceError "modules"))
          | (st', .error e) => (st', .error e)
termination_by structural fuel

end

/-- `app[cmd]( data )`: dispatch a command on a stored value. Only built
modules expose string-keyed commands; the constructor-installed closures and
bound methods own none (their `Function.prototype` members are not modelled). -/
def callMember (app : MVal) (cmd : String) (data : JsVal) : Except Err JsVal :=
  match app with
  | .user _ m =>
      match mfind m.cmds cmd with
      | some f => f data
      | none => .error (.notAFunction cmd)
  | .getter _ => .error (.notAFunction cmd)
  | .builtin _ => .error (.notAFunction cmd)

/-- `execute ( nextApp = "", cmd = "", data )`. -/
def execute (fuel : Nat) (env : Env) (nextApp cmd data : JsVal) : BMM JsVal := fun st =>
  match isString "nextApp" nextApp with
  | .error e => (st, .error e)
  | .ok _ =>
    match hasValue "nextApp" nextApp with
    | .error e => (st, .error e)
    | .ok _ =>
      match isString "cmd" cmd with
      | .error e => (st, .error e)
      | .ok _ =>
        match hasValue "cmd" cmd with
        | .error e => (st, .error e)
        | .ok _ =>
          match nextApp, cmd with
          | .str na, .str c =>
            -- if ( !this.#modules.has( nextApp ) ) await this.register( nextApp );
            -- const app = this.#modules.get( nextApp ); return app[cmd]( data )
            if mhas st.modules na then
              match mfind st.modules na with
              | some app => (st, callMember app c data)
              | none => (st, .error (.typeError "app is undefined"))
            else
              match register fuel env na true st with
              | (st', .error e) => (st', .error e)
              | (st', .ok _) =>
                match mfind st'.modules na with
                | some app => (st', callMember app c data)
                | none => (st', .error (.typeError "app is undefined"))
          | _, _ =>
            -- unreachable: isString succeeded on both arguments
            (st, .error (.typeError "unreachable"))

/-- `await this.register( nextApp )` as called from `executeWithFallback`,
where `nextApp` is an arbitrary value: `undefined` triggers the `id = ""`
default, and any other non-string reaches `path.startsWith` and throws. -/
def registerDyn (fuel : Nat) (env : Env) (v : JsVal) : BMM RegRes :=
  match v with
  | .str s => register fuel env s true
  | .undefined => register fuel env "" true
  | _ => bmThrow (.typeError "path.startsWith is not a function")

/-- The `this.#modules.has( nextApp )` test of `executeWithFallback`, where
`nextApp` is an arbitrary value (non-string keys are never present in the
string-keyed module table). -/
def hasModuleDyn (st : BM) (v : JsVal) : Bool :=
  match v with
  | .str s => mhas st.modules s
  | _ => false

/-- `executeWithFallback ( nextApp = "", cmd = "", data )`: catch a failed
registration of `nextApp`, substitute the default triple, and run `execute`. -/
def executeWithFallback (fuel : Nat) (env : Env) (nextApp cmd data : JsVal) :
    BMM JsVal := fun st =>
  if !(hasModuleDyn st nextApp) then
    match registerDyn fuel env nextApp st with
    | (st, .ok _) => execute fuel env nextApp cmd data st
    | (st, .error _) =>
      -- console.log(`App not found, using as fallback ...`)
      execute fuel env st.defaultApp st.defaultCmd st.defaultData st
  else
    execute fuel env nextApp cmd data st

/-- An entry of the list handed to `run`. -/
structure RunEntry : Type where
  pkg : JsVal
  cmd : JsVal
  data : JsVal

/-- `run ( packages = [] )`: sequentially execute each entry, awaiting each. -/
def run (fuel : Nat) (env : Env) : List RunEntry → BMM Unit
  | [] => bmPure ()
  | e :: rest => fun st =>
    match execute fuel env e.pkg e.cmd e.data st with
    | (st, .ok _) => run fuel env rest st
    | (st, .error err) => (st, .error err)

/-- `hasNotModule ( id )`. -/
def hasNotModule (st : BM) (id : String) : Bool := !(mhas st.modules id)

/-- `getModule ( id )`. -/
def getModule (st : BM) (id : String) : Option MVal := mfind st.modules id

/-- `listModules ()`: the module ids in insertion order. -/
def listModules (st : BM) : List String := st.modules.map Prod.fst

/-! ### Observations -/

/-- The error produced by a computation, if any. -/
def errOf {α : Type} (r : BM × Except Err α) : Option Err :=
  match r.2 with
  | .error e => some e
  | .ok _ => none

/-- Did the computation succeed? -/
def okOf {α : Type} (r : BM × Except Err α) : Bool := (errOf r).isNone

/-- The allocation identity of a stored value, when it is a built module. -/
def MVal.ref? : MVal → Option Nat
  | .user r _ => some r
  | _ => none

/-- Is a registration result a built module (as opposed to a Builder)? -/
def RegRes.isModule : RegRes → Bool
  | .module _ => true
  | .builder _ => false

/-- The allocation identity carried by a registration result. -/
def RegRes.ref? : RegRes → Option Nat
  | .module m => m.ref?
  | .builder _ => none

/-- A JavaScript value that is a non-empty string (what `isString` followed by
`hasValue` accepts). -/
def nonEmptyString : JsVal → Bool
  | .str s => s ≠ ""
  | _ => false

/-! ### Association-list and set lemmas -/

theorem mfind_mset_self {α : Type} (m : List (String × α)) (k : String) (v : α) :
    mfind (mset m k v) k = some v := by
  induction m with
  | nil => simp [mset, mfind]
  | cons p rest ih =>
      by_cases h : p.1 = k
      · simp [mset, h, mfind]
      · simpa [mset, h, mfind] using ih

theorem mfind_mset_ne {α : Type} (m : List (String × α)) (k k' : String) (v : α)
    (h : k' ≠ k) : mfind (mset m k' v) k = mfind m k := by
  induction m with
  | nil => simp [mset, mfind, h]
  | cons p rest ih =>
      by_cases hp : p.1 = k'
      · simp [mset, hp, mfind, h]
      · simp only [mset, hp, if_false]
        by_cases hk : p.1 = k
        · simp [mfind, hk]
        · simpa [mfind, hk] using ih

theorem mhas_mset {α : Type} (m : List (String × α)) (k k' : String) (v : α)
    (h : mhas m k = true) : mhas (mset m k' v) k = true := by
  by_cases hk : k' = k
  · subst hk; simp [mhas, mfind_mset_self]
  · simpa [mhas, mfind_mset_ne m k k' v hk] using h

theorem contains_sadd (s : List String) (x y : String)
    (h : s.contains y = true) : (sadd s x).contains y = true := by
  unfold sadd
  split
  · exact h
  · exact List.elem_eq_true_of_mem
      (List.mem_append_left _ (List.mem_of_elem_eq_true h))

theorem contains_sadd_self (s : List String) (x : String) :
    (sadd s x).contains x = true := by
  unfold sadd
  split
  · assumption
  · exact List.elem_eq_true_of_mem
      (List.mem_append_right _ (List.mem_singleton.mpr rfl))

theorem string_length_eq_zero_iff (s : String) : s.length = 0 ↔ s = "" := by
  constructor
  · intro h
    cases s with
    | mk data =>
        have hd : data = [] := List.length_eq_zero.mp h
        subst hd
        rfl
  · intro h
    subst h
    rfl

/-! ### State evolution

`Evolves st st'` records what every framework operation preserves: the
configuration is untouched, and the loaded-package set and the module table
only ever grow. -/

def Evolves (st st' : BM) : Prop :=
  st'.rootDirectory = st.rootDirectory ∧
  st'.sourcesDirectory = st.sourcesDirectory ∧
  st'.packagesDirectory = st.packagesDirectory ∧
  st'.defaultApp = st.defaultApp ∧
  st'.defaultCmd = st.defaultCmd ∧
  st'.defaultData = st.defaultData ∧
  (∀ x, st.packages.contains x = true → st'.packages.contains x = true) ∧
  (∀ k, mhas st.modules k = true → mhas st'.modules k = true)

theorem Evolves.refl (st : BM) : Evolves st st :=
  ⟨rfl, rfl, rfl, rfl, rfl, rfl, fun _ h => h, fun _ h => h⟩

theorem Evolves.trans {a b c : BM} (h1 : Evolves a b) (h2 : Evolves b c) :
    Evolves a c := by
  obtain ⟨r1, s1, p1, da1, dc1, dd1, pk1, mo1⟩ := h1
  obtain ⟨r2, s2, p2, da2, dc2, dd2, pk2, mo2⟩ := h2
  exact ⟨r2.trans r1, s2.trans s1, p2.trans p1, da2.trans da1, dc2.trans dc1,
         dd2.trans dd1, fun x h => pk2 x (pk1 x h), fun k h => mo2 k (mo1 k h)⟩

theorem evolves_loadPackage (env : Env) (p : String) (st : BM) :
    Evolves st (loadPackage env p st).1 := by
  unfold loadPackage
  dsimp only
  split
  · exact ⟨rfl, rfl, rfl, rfl, rfl, rfl, fun x hx => contains_sadd _ _ _ hx,
           fun k hk => hk⟩
  · exact ⟨rfl, rfl, rfl, rfl, rfl, rfl, fun x hx => hx, fun k hk => hk⟩

theorem evolves_importSource (env : Env) (p : String) (st : BM) :
    Evolves st (importSource env p st).1 := by
  unfold importSource
  cases hc : mfind st.sources p with
  | some s => exact Evolves.refl _
  | none =>
      cases h : env.importFile (st.sourcesDirectory ++ p) with
      | some s => exact ⟨rfl, rfl, rfl, rfl, rfl, rfl, fun _ h => h, fun _ h => h⟩
      | none => exact Evolves.refl _

theorem evolves_registerBuilder (id : String) (f : Option Factory) (d : DepMap)
    (st : BM) : Evolves st (registerBuilder id f d st).1 :=
  ⟨rfl, rfl, rfl, rfl, rfl, rfl, fun _ h => h, fun _ h => h⟩

theorem evolves_buildModule (B : Builder) (st : BM) :
    Evolves st (buildModule B st).1 := by
  unfold buildModule
  split
  · exact Evolves.refl _
  · split
    · exact Evolves.refl _
    · exact ⟨rfl, rfl, rfl, rfl, rfl, rfl, fun _ h => h, fun _ h => h⟩

theorem evolves_depSourcesLoop (env : Env) (deps : DepMap) (specs : List DepSpec)
    (st : BM) : Evolves st (depSourcesLoop env deps specs st).1 := by
  cases specs with
  | nil => exact Evolves.refl _
  | cons s rest =>
      unfold depSourcesLoop
      dsimp only
      split
      · exact Evolves.refl _
      · rename_i p _hp
        split <;>
        · rename_i h
          have := evolves_importSource env (jsShow p.id) st
          rw [h] at this
          exact this

/-- Evolution for a modules-table write. -/
theorem evolves_mset_modules (st : BM) (k : String) (v : MVal) :
    Evolves st { st with modules := mset st.modules k v } :=
  ⟨rfl, rfl, rfl, rfl, rfl, rfl, fun _ h => h, fun _ h => mhas_mset _ _ _ _ h⟩

/-- Evolution for a builders-table write. -/
theorem evolves_set_builders (st : BM) (bs : List (String × Builder)) :
    Evolves st { st with builders := bs } :=
  ⟨rfl, rfl, rfl, rfl, rfl, rfl, fun _ h => h, fun _ h => h⟩

theorem evolves_applyAndBuild (mid bid : String) (fs : JsVal) (st : BM) :
    Evolves st (applyAndBuild mid bid fs st).1 := by
  unfold applyAndBuild
  split
  · exact Evolves.refl _
  · rename_i B hB
    have e2 : Evolves st { st with builders := mset st.builders bid (B.applySettings fs) } :=
      evolves_set_builders _ _
    split
    · rename_i h3
      have := evolves_buildModule (B.applySettings fs)
        { st with builders := mset st.builders bid (B.applySettings fs) }
      rw [h3] at this
      exact e2.trans this
    · rename_i st3 m h3
      have e3 : Evolves st st3 := by
        have := evolves_buildModule (B.applySettings fs)
          { st with builders := mset st.builders bid (B.applySettings fs) }
        rw [h3] at this
        exact e2.trans this
      exact e3.trans (evolves_mset_modules st3 mid m)

/-- Every recursive operation of the registration engine evolves the state:
the configuration is preserved and the loaded-package set and module table
only grow. -/
theorem evolves_engine (fuel : Nat) :
    (∀ env id build st, Evolves st (register fuel env id build st).1) ∧
    (∀ env mid bid fs st, Evolves st (createModuleFromBuilder fuel env mid bid fs st).1) ∧
    (∀ env dl st, Evolves st (getDependencies fuel env dl st).1) ∧
    (∀ env deps specs st, Evolves st (depPackagesLoop fuel env deps specs st).1) := by
  induction fuel with
  | zero => exact ⟨fun _ _ _ _ => Evolves.refl _, fun _ _ _ _ _ => Evolves.refl _,
                   fun _ _ _ => Evolves.refl _, fun _ _ _ _ => Evolves.refl _⟩
  | succ n ih =>
      obtain ⟨ihr, ihc, ihg, ihl⟩ := ih
      refine ⟨?_, ?_, ?_, ?_⟩
      · -- register (n+1)
        intro env id build st
        unfold register
        dsimp only
        split
        · exact Evolves.refl _
        · split
          · rename_i h
            have := evolves_loadPackage env id st
            rw [h] at this
            exact this
          · rename_i st1 pkg h
            have e1 : Evolves st st1 := by
              have := evolves_loadPackage env id st
              rw [h] at this
              exact this
            split
            · rename_i source hsrc
              split
              · rename_i h2
                have := ihg env pkg.dependencies st1
                rw [h2] at this
                exact e1.trans this
              · rename_i st2 deps h2
                have e2 : Evolves st st2 := by
                  have := ihg env pkg.dependencies st1
                  rw [h2] at this
                  exact e1.trans this
                split
                · rename_i h3
                  have := evolves_importSource env source st2
                  rw [h3] at this
                  exact e2.trans this
                · rename_i st3 smod h3
                  have e3 : Evolves st st3 := by
                    have := evolves_importSource env source st2
                    rw [h3] at this
                    exact e2.trans this
                  split
                  · rename_i h4
                    have := evolves_registerBuilder id smod.factory deps st3
                    rw [h4] at this
                    exact e3.trans this
                  · rename_i st4 B h4
                    have e4 : Evolves st st4 := by
                      have := evolves_registerBuilder id smod.factory deps st3
                      rw [h4] at this
                      exact e3.trans this
                    split
                    · split
                      · rename_i h5
                        have := ihc env id id pkg.factorySettings st4
                        rw [h5] at this
                        exact e4.trans this
                      · rename_i st5 m h5
                        have := ihc env id id pkg.factorySettings st4
                        rw [h5] at this
                        exact e4.trans this
                    · exact e4
            · split
              · rename_i builder hbld
                split
                · rename_i h5
                  have := ihc env id builder pkg.factorySettings st1
                  rw [h5] at this
                  exact e1.trans this
                · rename_i st5 m h5
                  have := ihc env id builder pkg.factorySettings st1
                  rw [h5] at this
                  exact e1.trans this
              · exact e1
      · -- createModuleFromBuilder (n+1)
        intro env mid bid fs st
        unfold createModuleFromBuilder
        split
        · exact evolves_applyAndBuild mid bid fs st
        · split
          · rename_i h
            have := ihr env bid false st
            rw [h] at this
            exact this
          · rename_i st1 u h
            have e1 : Evolves st st1 := by
              have := ihr env bid false st
              rw [h] at this
              exact this
            exact e1.trans (evolves_applyAndBuild mid bid fs st1)
      · -- getDependencies (n+1)
        intro env dl st
        unfold getDependencies
        dsimp only
        split
        · split
          · exact Evolves.refl _
          · exact evolves_depSourcesLoop env [] _ st
        · split
          · rename_i h
            have := ihl env [] ((dl.bind DepsField.packages).getD []) st
            rw [h] at this
            exact this
          · rename_i st1 deps h
            have e1 : Evolves st st1 := by
              have := ihl env [] ((dl.bind DepsField.packages).getD []) st
              rw [h] at this
              exact this
            split
            · exact e1
            · exact e1.trans (evolves_depSourcesLoop env deps _ st1)
      · -- depPackagesLoop (n+1)
        intro env deps specs st
        unfold depPackagesLoop
        split
        · exact Evolves.refl _
        · split
          · exact Evolves.refl _
          · rename_i p hp
            split
            · exact Evolves.refl _
            · split
              · rename_i h
                have := ihr env (p.id.getD "") (p.build.getD true) st
                rw [h] at this
                exact this
              · rename_i h
                have := ihr env (p.id.getD "") (p.build.getD true) st
                rw [h] at this
                exact this

theorem evolves_register (fuel : Nat) (env : Env) (id : String) (build : Bool)
    (st : BM) : Evolves st (register fuel env id build st).1 :=
  (evolves_engine fuel).1 env id build st

theorem evolves_getDependencies (fuel : Nat) (env : Env) (dl : Option DepsField)
    (st : BM) : Evolves st (getDependencies fuel env dl st).1 :=
  (evolves_engine fuel).2.2.1 env dl st

theorem evolves_createModuleFromBuilder (fuel : Nat) (env : Env)
    (mid bid : String) (fs : JsVal) (st : BM) :
    Evolves st (createModuleFromBuilder fuel env mid bid fs st).1 :=
  (evolves_engine fuel).2.1 env mid bid fs st

theorem evolves_execute (fuel : Nat) (env : Env) (a b d : JsVal) (st : BM) :
    Evolves st (execute fuel env a b d st).1 := by
  cases a with
  | str na =>
      cases b with
      | str cb =>
          unfold execute
          dsimp only [isString, hasValue]
          by_cases hna : na.length = 0
          · rw [if_pos hna]
            exact Evolves.refl _
          · rw [if_neg hna]
            dsimp only
            by_cases hcb : cb.length = 0
            · rw [if_pos hcb]
              exact Evolves.refl _
            · rw [if_neg hcb]
              dsimp only
              split
              · split
                · exact Evolves.refl _
                · exact Evolves.refl _
              · split
                · rename_i h
                  have := evolves_register fuel env na true st
                  rw [h] at this
                  exact this
                · rename_i st' u h
                  have e1 : Evolves st st' := by
                    have := evolves_register fuel env na true st
                    rw [h] at this
                    exact this
                  split
                  · exact e1
                  · exact e1
      | undefined =>
          unfold execute
          dsimp only [isString, hasValue]
          by_cases hna : na.length = 0
          · rw [if_pos hna]
            exact Evolves.refl _
          · rw [if_neg hna]
            exact Evolves.refl _
      | bool bb =>
          unfold execute
          dsimp only [isString, hasValue]
          by_cases hna : na.length = 0
          · rw [if_pos hna]
            exact Evolves.refl _
          · rw [if_neg hna]
            exact Evolves.refl _
      | num nn =>
          unfold execute
          dsimp only [isString, hasValue]
          by_cases hna : na.length = 0
          · rw [if_pos hna]
            exact Evolves.refl _
          · rw [if_neg hna]
            exact Evolves.refl _
  | undefined => exact Evolves.refl _
  | bool bb => exact Evolves.refl _
  | num nn => exact Evolves.refl _

theorem evolves_registerDyn (fuel : Nat) (env : Env) (v : JsVal) (st : BM) :
    Evolves st (registerDyn fuel env v st).1 := by
  cases v with
  | str s => exact evolves_register fuel env s true st
  | undefined => exact evolves_register fuel env "" true st
  | bool b => exact Evolves.refl _
  | num n => exact Evolves.refl _

theorem evolves_executeWithFallback (fuel : Nat) (env : Env) (a b d : JsVal)
    (st : BM) : Evolves st (executeWithFallback fuel env a b d st).1 := by
  unfold executeWithFallback
  split
  · split
    · rename_i st' u h
      have e1 : Evolves st st' := by
        have := evolves_registerDyn fuel env a st
        rw [h] at this
        exact this
      exact e1.trans (evolves_execute fuel env a b d st')
    · rename_i st' e h
      have e1 : Evolves st st' := by
        have := evolves_registerDyn fuel env a st
        rw [h] at this
        exact this
      exact e1.trans (evolves_execute fuel env st'.defaultApp st'.defaultCmd st'.defaultData st')
  · exact evolves_execute fuel env a b d st

theorem evolves_run (fuel : Nat) (env : Env) (entries : List RunEntry) (st : BM) :
    Evolves st (run fuel env entries st).1 := by
  induction entries generalizing st with
  | nil => exact Evolves.refl _
  | cons e rest ih =>
      unfold run
      split
      · rename_i h
        have e1 : Evolves st _ := evolves_execute fuel env e.pkg e.cmd e.data st
        rw [h] at e1
        exact e1.trans (ih _)
      · rename_i st' err h
        have := evolves_execute fuel env e.pkg e.cmd e.data st
        rw [h] at this
        exact this

/-! ### What successful operations leave in the registry -/

theorem loadPackage_ok_contains {env : Env} {p : String} {st st' : BM}
    {pkg : Descriptor} (h : loadPackage env p st = (st', .ok pkg)) :
    st'.packages.contains p = true := by
  unfold loadPackage at h
  dsimp only at h
  split at h
  · cases h
    exact contains_sadd_self _ _
  · cases h

theorem applyAndBuild_ok_stored {mid bid : String} {fs : JsVal} {st st' : BM}
    {m : MVal} (h : applyAndBuild mid bid fs st = (st', .ok m)) :
    mfind st'.modules mid = some m := by
  unfold applyAndBuild at h
  split at h
  · cases h
  · split at h
    · cases h
    · cases h
      exact mfind_mset_self _ _ _

theorem createModuleFromBuilder_ok_stored {fuel : Nat} {env : Env}
    {mid bid : String} {fs : JsVal} {st st' : BM} {m : MVal}
    (h : createModuleFromBuilder fuel env mid bid fs st = (st', .ok m)) :
    mfind st'.modules mid = some m := by
  cases fuel with
  | zero => cases h
  | succ n =>
      unfold createModuleFromBuilder at h
      split at h
      · exact applyAndBuild_ok_stored h
      · split at h
        · cases h
        · exact applyAndBuild_ok_stored h

theorem registerBuilder_stored {id : String} {f : Option Factory} {d : DepMap}
    {st st' : BM} {B : Builder}
    (h : registerBuilder id f d st = (st', .ok B)) :
    mfind st'.builders id = some B := by
  unfold registerBuilder at h
  cases h
  exact mfind_mset_self _ _ _

/-- A successful `register` with `build = true` always returns a module and
leaves it stored under `id`, with `id` in the loaded-package set. -/
theorem register_true_ok {fuel : Nat} {env : Env} {id : String} {st st' : BM}
    {r : RegRes} (h : register fuel env id true st = (st', .ok r)) :
    ∃ m, r = .module m ∧ mfind st'.modules id = some m ∧
      st'.packages.contains id = true := by
  cases fuel with
  | zero => cases h
  | succ n =>
      unfold register at h
      dsimp only at h
      split at h
      · rename_i cachedRes hc
        -- the cached branch: the nested ifs must have produced a module
        cases h
        by_cases hpk : st.packages.contains id = true
        · rw [if_pos hpk, if_pos rfl] at hc
          cases hm : mfind st.modules id with
          | none => rw [hm] at hc; cases hc
          | some m =>
              rw [hm] at hc
              cases hc
              exact ⟨m, rfl, rfl, hpk⟩
        · rw [if_neg hpk] at hc
          cases hc
      · split at h
        · cases h
        · rename_i st1 pkg hload
          have hc1 : st1.packages.contains id = true := loadPackage_ok_contains hload
          split at h
          · -- source path
            rename_i source hsrc
            split at h
            · cases h
            · rename_i st2 deps hdeps
              have hc2 : st2.packages.contains id = true := by
                have := evolves_getDependencies n env pkg.dependencies st1
                rw [hdeps] at this
                exact this.2.2.2.2.2.2.1 id hc1
              split at h
              · cases h
              · rename_i st3 smod himp
                have hc3 : st3.packages.contains id = true := by
                  have := evolves_importSource env source st2
                  rw [himp] at this
                  exact this.2.2.2.2.2.2.1 id hc2
                split at h
                · cases h
                · rename_i st4 B hrb
                  have hc4 : st4.packages.contains id = true := by
                    have := evolves_registerBuilder id smod.factory deps st3
                    rw [hrb] at this
                    exact this.2.2.2.2.2.2.1 id hc3
                  rw [if_pos rfl] at h
                  split at h
                  · cases h
                  · rename_i st5 m hbuild
                    cases h
                    refine ⟨m, rfl, createModuleFromBuilder_ok_stored hbuild, ?_⟩
                    have := evolves_createModuleFromBuilder n env id id pkg.factorySettings st4
                    rw [hbuild] at this
                    exact this.2.2.2.2.2.2.1 id hc4
          · -- builder path
            split at h
            · rename_i builder hbld
              split at h
              · cases h
              · rename_i st5 m hbuild
                cases h
                refine ⟨m, rfl, createModuleFromBuilder_ok_stored hbuild, ?_⟩
                have := evolves_createModuleFromBuilder n env id builder pkg.factorySettings st1
                rw [hbuild] at this
                exact this.2.2.2.2.2.2.1 id hc1
            · cases h

/-- Memoization: once `id` is in the loaded set with a stored module,
`register` with `build = true` returns that module unchanged, with no state
change (in particular, the descriptor loader is not consulted again). -/
theorem register_cached_module (k : Nat) (env : Env) (id : String) (st : BM)
    (m : MVal) (h1 : st.packages.contains id = true)
    (h2 : mfind st.modules id = some m) :
    register (k + 1) env id true st = (st, .ok (.module m)) := by
  unfold register
  dsimp only
  rw [h1]
  simp [h2]

/-- Memoization: once `id` is in the loaded set with a stored Builder,
`register` with `build = false` returns that Builder unchanged, with no state
change. -/
theorem register_cached_builder (k : Nat) (env : Env) (id : String) (st : BM)
    (B : Builder) (h1 : st.packages.contains id = true)
    (h2 : mfind st.builders id = some B) :
    register (k + 1) env id false st = (st, .ok (.builder B)) := by
  unfold register
  dsimp only
  rw [h1]
  simp [h2]

/-- A successful `register` with `build = false` that returns a Builder leaves
that Builder stored under `id`, with `id` in the loaded-package set. -/
theorem register_false_ok_builder {fuel : Nat} {env : Env} {id : String}
    {st st' : BM} {B : Builder}
    (h : register fuel env id false st = (st', .ok (.builder B))) :
    mfind st'.builders id = some B ∧ st'.packages.contains id = true := by
  cases fuel with
  | zero => cases h
  | succ n =>
      unfold register at h
      dsimp only at h
      split at h
      · rename_i cachedRes hc
        cases h
        by_cases hpk : st.packages.contains id = true
        · rw [if_pos hpk, if_neg (by decide)] at hc
          cases hb : mfind st.builders id with
          | none => rw [hb] at hc; cases hc
          | some B0 =>
              rw [hb] at hc
              cases hc
              exact ⟨rfl, hpk⟩
        · rw [if_neg hpk] at hc
          cases hc
      · split at h
        · cases h
        · rename_i st1 pkg hload
          have hc1 : st1.packages.contains id = true := loadPackage_ok_contains hload
          split at h
          · rename_i source hsrc
            split at h
            · cases h
            · rename_i st2 deps hdeps
              have hc2 : st2.packages.contains id = true := by
                have := evolves_getDependencies n env pkg.dependencies st1
                rw [hdeps] at this
                exact this.2.2.2.2.2.2.1 id hc1
              split at h
              · cases h
              · rename_i st3 smod himp
                have hc3 : st3.packages.contains id = true := by
                  have := evolves_importSource env source st2
                  rw [himp] at this
                  exact this.2.2.2.2.2.2.1 id hc2
                split at h
                · cases h
                · rename_i st4 B0 hrb
                  have hc4 : st4.packages.contains id = true := by
                    have := evolves_registerBuilder id smod.factory deps st3
                    rw [hrb] at this
                    exact this.2.2.2.2.2.2.1 id hc3
                  rw [if_neg (by decide)] at h
                  cases h
                  exact ⟨registerBuilder_stored hrb, hc4⟩
          · split at h
            · rename_i builder hbld
              split at h
              · cases h
              · simp at h
            · cases h

deriving instance DecidableEq for Except

/-! ### A concrete collaborator environment, used by witnesses -/

/-- The greeter factory of the repository's test sources: a three-layer
factory whose module exposes `greet ( name ) = "Hello " + name`. -/
def greeterFactory : Factory := fun _deps _settings =>
  .ok ⟨[("greet", fun data =>
        match data with
        | .str n => .ok (.str ("Hello " ++ n))
        | _ => .ok (.str "Hello undefined"))]⟩

/-- A concrete environment: a greeter package, a builder-reference package
`a` pointing at source package `s`, and two packages whose dependency lists
exercise `#getDependencies`. -/
def envT : Env :=
  { loadJson := fun p =>
      if p = "./packages/greeter.json" then some { source := some "/greeter.js" }
      else if p = "./packages/a.json" then some { builder := some "s" }
      else if p = "./packages/s.json" then some { source := some "/f.js" }
      else if p = "./packages/depp.json" then
        some { source := some "/f.js"
               dependencies := some { packages := some [.strSpec "greeter"] } }
      else if p = "./packages/deps.json" then
        some { source := some "/f.js"
               dependencies := some { sources := some [.strSpec "/m.js"] } }
      else none
    importFile := fun p =>
      if p = "./sources/greeter.js" then some ⟨some greeterFactory⟩
      else if p = "./sources/f.js" then some ⟨some greeterFactory⟩
      else none }

/-- A freshly constructed instance with the default configuration. -/
def st0 : BM := (mkBlackMamba {}).toOption.getD default

/-- A freshly constructed instance configured with the default-fallback triple
of the repository's fallback test. -/
def stFb : BM :=
  (mkBlackMamba { defaultApp := .str "greeter", defaultCmd := .str "greet"
                  defaultData := .str "Nobody" }).toOption.getD default

/-- The allocation identity of the module returned by a registration. -/
def regRefOf (r : BM × Except Err RegRes) : Option Nat :=
  match r.2 with
  | .ok rr => rr.ref?
  | .error _ => none

/-! ### Claim theorems -/

/-- Claim C8: `loadPackage` resolves the descriptor location to
`packagesDirectory + path + ".json"` when the path starts with a slash and to
`packagesDirectory + "/" + path + ".json"` otherwise, and hands exactly that
path to the descriptor loader (the recorded load shows the path consulted);
in particular `loadPackage "test"` reads `<packagesDirectory>/test.json` and
`loadPackage "/subfolder/test"` reads `<packagesDirectory>/subfolder/test.json`. -/
theorem loadPackage_path_resolution (env : Env) (st : BM) (path : String) :
    (resolvePackagePath st.packagesDirectory path =
      if startsWithSlash path then st.packagesDirectory ++ path ++ ".json"
      else st.packagesDirectory ++ "/" ++ path ++ ".json") ∧
    (loadPackage env path st).1.loadTrace =
      st.loadTrace ++ [resolvePackagePath st.packagesDirectory path] ∧
    (loadPackage env path st).2 =
      (match env.loadJson (resolvePackagePath st.packagesDirectory path) with
       | some pkg => .ok pkg
       | none => .error (.packageLoad (resolvePackagePath st.packagesDirectory path))) ∧
    (loadPackage env "test" st).1.loadTrace =
      st.loadTrace ++ [st.packagesDirectory ++ "/test.json"] ∧
    (loadPackage env "/subfolder/test" st).1.loadTrace =
      st.loadTrace ++ [st.packagesDirectory ++ "/subfolder/test.json"] := by
  refine ⟨rfl, ?_, ?_, ?_, ?_⟩
  · unfold loadPackage
    dsimp only
    split <;> rfl
  · unfold loadPackage
    dsimp only
    split <;> simp_all
  · unfold loadPackage
    dsimp only
    split
    all_goals
      simp only [resolvePackagePath, startsWithSlash]
      rw [if_neg (by decide), String.append_assoc, String.append_assoc]
      rfl
  · unfold loadPackage
    dsimp only
    split
    all_goals
      simp only [resolvePackagePath, startsWithSlash]
      rw [if_pos (by decide), String.append_assoc]
      rfl


/-- Internal: the `packages` loop fails on its first iteration, because the
single-argument `#parseDependencies` call sees an undefined `dependency`. -/
theorem getDependencies_packages_throws (fuel : Nat) (env : Env) (st : BM)
    (p : DepSpec) (rest : List DepSpec) (srcs : Option (List DepSpec)) :
    getDependencies (fuel + 2) env
        (some { packages := some (p :: rest), sources := srcs }) st =
      (st, .error (.typeError "Cannot read properties of undefined (reading pkg)")) := by
  rfl

/-- Claim C1 (code bug): a non-empty `dependencies.packages` list never builds
the dependency map. `#parseDependencies` is invoked with a single argument, so
its `dependency` parameter is undefined and reading `dependency.pkg` throws a
TypeError on the first iteration; `register` on any fresh descriptor with a
source and such a list therefore fails with that TypeError right after the one
descriptor load, and no Builder is ever injected or stored. -/
theorem register_packages_dependencies_bug (fuel : Nat) (env : Env) (st : BM)
    (p : DepSpec) (rest : List DepSpec) (srcs : Option (List DepSpec)) :
    (parseDependencies (specText p) none =
       .error (.typeError "Cannot read properties of undefined (reading pkg)")) ∧
    (getDependencies (fuel + 2) env
        (some { packages := some (p :: rest), sources := srcs }) st =
       (st, .error (.typeError "Cannot read properties of undefined (reading pkg)"))) ∧
    (∀ (id source : String) (d : Descriptor) (build : Bool),
       st.packages.contains id = false →
       env.loadJson (resolvePackagePath st.packagesDirectory id) = some d →
       truthyOpt d.source = some source →
       d.dependencies = some { packages := some (p :: rest), sources := srcs } →
       register (fuel + 3) env id build st =
         ((loadPackage env id st).1,
          .error (.typeError "Cannot read properties of undefined (reading pkg)"))) := by
  refine ⟨rfl, getDependencies_packages_throws fuel env st p rest srcs, ?_⟩
  intro id source d build hmemo hload hsrc hdeps
  have hlp : loadPackage env id st = ((loadPackage env id st).1, .ok d) := by
    unfold loadPackage
    dsimp only
    rw [hload]
  unfold register
  dsimp only
  rw [if_neg (by rw [hmemo]; exact Bool.false_ne_true)]
  dsimp only
  rw [hlp]
  dsimp only
  rw [hsrc]
  dsimp only
  rw [hdeps]
  rw [getDependencies_packages_throws fuel env (loadPackage env id st).1 p rest srcs]

theorem register_packages_dependencies_bug_witness :
    register 10 envT "depp" true st0 =
      ((loadPackage envT "depp" st0).1,
       .error (.typeError "Cannot read properties of undefined (reading pkg)")) :=
  (register_packages_dependencies_bug 7 envT st0 (.strSpec "greeter") [] none).2.2
    "depp" "/f.js"
    { source := some "/f.js"
      dependencies := some { packages := some [.strSpec "greeter"] } }
    true (by decide) (by decide) (by decide) (by decide)

/-- Internal: the `sources` loop fails on its first iteration, again because
the single-argument `#parseDependencies` call sees an undefined `dependency`. -/
theorem depSourcesLoop_throws (env : Env) (deps : DepMap) (s : DepSpec)
    (rest : List DepSpec) (st : BM) :
    depSourcesLoop env deps (s :: rest) st =
      (st, .error (.typeError "Cannot read properties of undefined (reading pkg)")) := rfl

/-- Claim C2 (code bug): a non-empty `dependencies.sources` list never binds
anything. The loop's single-argument `#parseDependencies` call throws a
TypeError before the Source Loader is ever consulted — the state, including
the source cache, is returned untouched — and, had parsing succeeded, the
`name = name || method` reassignment of a `const` binding would throw anyway.
`#getDependencies` on a descriptor with no package dependencies and a
non-empty source list fails accordingly. -/
theorem getDependencies_sources_bug (fuel : Nat) (env : Env) (st : BM)
    (s : DepSpec) (rest : List DepSpec) :
    (parseDependencies (specText s) none =
       .error (.typeError "Cannot read properties of undefined (reading pkg)")) ∧
    (∀ deps, depSourcesLoop env deps (s :: rest) st =
       (st, .error (.typeError "Cannot read properties of undefined (reading pkg)"))) ∧
    (∀ pk, pk = none ∨ pk = some ([] : List DepSpec) →
       getDependencies (fuel + 1) env
           (some { packages := pk, sources := some (s :: rest) }) st =
         (st, .error (.typeError "Cannot read properties of undefined (reading pkg)"))) := by
  refine ⟨rfl, fun deps => rfl, ?_⟩
  intro pk hpk
  rcases hpk with h | h
  · subst h
    rfl
  · subst h
    rfl

theorem getDependencies_sources_bug_witness :
    getDependencies 5 envT
        (some { packages := none, sources := some [DepSpec.strSpec "/m.js"] }) st0 =
      (st0, .error (.typeError "Cannot read properties of undefined (reading pkg)")) :=
  (getDependencies_sources_bug 4 envT st0 (.strSpec "/m.js") []).2.2 none (Or.inl rfl)

instance : Inhabited Builder := ⟨{ factory := none }⟩

instance : Inhabited RegRes := ⟨.builder default⟩

/-- Extract the payload of a successful outcome (default on errors). -/
def okVal {α : Type} [Inhabited α] (x : Except Err α) : α :=
  match x with
  | .ok a => a
  | .error _ => default

/-- Claim C4 (amended): a successful `register ( id, build = true )` stores
the returned module under `id`, and a repeat call with `build = true` returns
the very same module with the state unchanged — in particular, no descriptor
load is recorded, so the Descriptor Loader is invoked at most once for `id`;
likewise a `register ( id, build = false )` that returned a Builder repeats
without side effects. (The repetition guarantee does not extend to a
`build = false` registration of a builder-referencing descriptor, which
returns a module instead of a Builder: see the counterexample.) -/
theorem register_idempotent (fuel : Nat) (env : Env) (id : String) (st : BM) :
    (∀ st' r, register fuel env id true st = (st', .ok r) →
       (∃ m, r = .module m ∧ mfind st'.modules id = some m) ∧
       ∀ k, register (k + 1) env id true st' = (st', .ok r)) ∧
    (∀ st' B, register fuel env id false st = (st', .ok (.builder B)) →
       ∀ k, register (k + 1) env id false st' = (st', .ok (.builder B))) := by
  constructor
  · intro st' r h
    obtain ⟨m, hm, hstored, hcont⟩ := register_true_ok h
    subst hm
    exact ⟨⟨m, rfl, hstored⟩,
           fun k => register_cached_module k env id st' m hcont hstored⟩
  · intro st' B h
    obtain ⟨hstored, hcont⟩ := register_false_ok_builder h
    exact fun k => register_cached_builder k env id st' B hcont hstored

theorem register_idempotent_witness :
    register 3 envT "greeter" true (register 10 envT "greeter" true st0).1 =
      ((register 10 envT "greeter" true st0).1,
       (register 10 envT "greeter" true st0).2) := by
  have h := ((register_idempotent 10 envT "greeter" st0).1
      (register 10 envT "greeter" true st0).1
      (okVal (register 10 envT "greeter" true st0).2) rfl).2 2
  rw [h]
  rfl

/-- Counterexample to claim C4 as stated: repeated registration with the same
`build = false` flag is not side-effect-free on the builder-referencing
descriptor `a` — the second call invokes the descriptor loader again (the
recorded load trace grows from two entries to three) and rebuilds, storing and
returning a module with a fresh allocation identity (nonce 1 instead of 0). -/
theorem register_repeat_side_effects_counterexample :
    okOf (register 10 envT "a" false st0) = true ∧
    (register 10 envT "a" false st0).1.loadTrace.length = 2 ∧
    okOf (register 10 envT "a" false (register 10 envT "a" false st0).1) = true ∧
    (register 10 envT "a" false
        (register 10 envT "a" false st0).1).1.loadTrace.length = 3 ∧
    regRefOf (register 10 envT "a" false st0) = some 0 ∧
    regRefOf (register 10 envT "a" false
        (register 10 envT "a" false st0).1) = some 1 := by
  refine ⟨by decide, by decide, by decide, by decide, by decide, by decide⟩

/-- Claim C3: on a fresh id whose descriptor carries a `builder` reference and
no truthy `source`, `register` hands off to `#createModuleFromBuilder` — which
first ensures the referenced Builder is registered, calling
`register ( builderId, false )` exactly when it is absent — then applies this
descriptor's `factorySettings`, builds, stores the module under `id`, and
returns it; the caller's `build` flag is irrelevant on this path, so a
successful registration always yields a built module. -/
theorem register_builder_path (fuel : Nat) (env : Env) (id b : String)
    (st : BM) (d : Descriptor)
    (hmemo : st.packages.contains id = false)
    (hload : env.loadJson (resolvePackagePath st.packagesDirectory id) = some d)
    (hsrc : truthyOpt d.source = none)
    (hbld : truthyOpt d.builder = some b) :
    (∀ build, register (fuel + 1) env id build st =
       (match createModuleFromBuilder fuel env id b d.factorySettings
            (loadPackage env id st).1 with
        | (st', .ok m) => (st', .ok (.module m))
        | (st', .error e) => (st', .error e))) ∧
    (register (fuel + 1) env id true st = register (fuel + 1) env id false st) ∧
    (∀ build st' r, register (fuel + 1) env id build st = (st', .ok r) →
       ∃ m, r = .module m ∧ mfind st'.modules id = some m) ∧
    (∀ (fs : JsVal) (mid bid : String) (st₁ : BM), mhas st₁.builders bid = true →
       createModuleFromBuilder (fuel + 1) env mid bid fs st₁ =
         applyAndBuild mid bid fs st₁) ∧
    (∀ (fs : JsVal) (mid bid : String) (st₁ : BM), mhas st₁.builders bid = false →
       createModuleFromBuilder (fuel + 1) env mid bid fs st₁ =
         (match register fuel env bid false st₁ with
          | (st', .error e) => (st', .error e)
          | (st', .ok _) => applyAndBuild mid bid fs st')) := by
  have hlp : loadPackage env id st = ((loadPackage env id st).1, .ok d) := by
    unfold loadPackage
    dsimp only
    rw [hload]
  have main : ∀ build, register (fuel + 1) env id build st =
      (match createModuleFromBuilder fuel env id b d.factorySettings
           (loadPackage env id st).1 with
       | (st', .ok m) => (st', .ok (.module m))
       | (st', .error e) => (st', .error e)) := by
    intro build
    unfold register
    dsimp only
    rw [if_neg (by rw [hmemo]; exact Bool.false_ne_true)]
    dsimp only
    rw [hlp]
    dsimp only
    rw [hsrc]
    dsimp only
    rw [hbld]
    dsimp only
    split
    · rename_i st2 e hcm
      rw [hcm]
    · rename_i st2 m hcm
      rw [hcm]
  refine ⟨main, by rw [main true, main false], ?_, ?_, ?_⟩
  · intro build st' r h
    rw [main build] at h
    split at h
    · rename_i st2 m hcm
      cases h
      exact ⟨m, rfl, createModuleFromBuilder_ok_stored hcm⟩
    · cases h
  · intro fs mid bid st₁ hb
    unfold createModuleFromBuilder
    rw [if_pos hb]
  · intro fs mid bid st₁ hb
    unfold createModuleFromBuilder
    rw [if_neg (by rw [hb]; exact Bool.false_ne_true)]

theorem register_builder_path_witness :
    register 10 envT "a" true st0 = register 10 envT "a" false st0 :=
  (register_builder_path 9 envT "a" "s" st0 { builder := some "s" }
    (by decide) (by decide) (by decide) (by decide)).2.1

/-- Internal: full characterization of `execute` — validation, conditional
auto-registration, and dispatch. -/
theorem execute_spec (fuel : Nat) (env : Env) (st : BM) (a b d : JsVal) :
    (nonEmptyString a = false →
       execute fuel env a b d st = (st, .error (.validation "nextApp"))) ∧
    (nonEmptyString a = true → nonEmptyString b = false →
       execute fuel env a b d st = (st, .error (.validation "cmd"))) ∧
    (∀ na cb, a = .str na → b = .str cb → na ≠ "" → cb ≠ "" →
       (mhas st.modules na = true →
          execute fuel env a b d st =
            (match mfind st.modules na with
             | some app => (st, callMember app cb d)
             | none => (st, .error (.typeError "app is undefined")))) ∧
       (mhas st.modules na = false →
          execute fuel env a b d st =
            (match register fuel env na true st with
             | (st', .error e) => (st', .error e)
             | (st', .ok _) =>
                 match mfind st'.modules na with
                 | some app => (st', callMember app cb d)
                 | none => (st', .error (.typeError "app is undefined"))))) := by
  refine ⟨?_, ?_, ?_⟩
  · intro h
    cases a with
    | str na =>
        have hna : na = "" := by simpa [nonEmptyString] using h
        subst hna
        rfl
    | undefined => rfl
    | bool bb => rfl
    | num nn => rfl
  · intro ha hb
    cases a with
    | str na =>
        have hna : na ≠ "" := by simpa [nonEmptyString] using ha
        cases b with
        | str cb =>
            have hcb : cb = "" := by simpa [nonEmptyString] using hb
            subst hcb
            unfold execute
            dsimp only [isString, hasValue]
            rw [if_neg (fun hh => hna ((string_length_eq_zero_iff na).mp hh))]
            rfl
        | undefined =>
            unfold execute
            dsimp only [isString, hasValue]
            rw [if_neg (fun hh => hna ((string_length_eq_zero_iff na).mp hh))]
        | bool bb =>
            unfold execute
            dsimp only [isString, hasValue]
            rw [if_neg (fun hh => hna ((string_length_eq_zero_iff na).mp hh))]
        | num nn =>
            unfold execute
            dsimp only [isString, hasValue]
            rw [if_neg (fun hh => hna ((string_length_eq_zero_iff na).mp hh))]
    | undefined => cases ha
    | bool bb => cases ha
    | num nn => cases ha
  · intro na cb haeq hbeq hna hcb
    subst haeq
    subst hbeq
    constructor
    · intro hm
      unfold execute
      dsimp only [isString, hasValue]
      rw [if_neg (fun hh => hna ((string_length_eq_zero_iff na).mp hh)),
          if_neg (fun hh => hcb ((string_length_eq_zero_iff cb).mp hh)),
          if_pos hm]
    · intro hm
      unfold execute
      dsimp only [isString, hasValue]
      rw [if_neg (fun hh => hna ((string_length_eq_zero_iff na).mp hh)),
          if_neg (fun hh => hcb ((string_length_eq_zero_iff cb).mp hh)),
          if_neg (by rw [hm]; exact Bool.false_ne_true)]

/-- Claim C5: `execute` fails with a validation error (and no state change)
unless both `nextApp` and `cmd` are non-empty strings; when they are, it calls
`register ( nextApp )` with `build = true` exactly when `nextApp` is not a
built module, propagating a registration failure, and then invokes the member
named `cmd` of the resolved module with `data`, returning its result; a module
with no callable member named `cmd` yields the not-a-function failure. -/
theorem execute_contract (fuel : Nat) (env : Env) (st : BM) (a b d : JsVal) :
    (nonEmptyString a = false →
       execute fuel env a b d st = (st, .error (.validation "nextApp"))) ∧
    (nonEmptyString a = true → nonEmptyString b = false →
       execute fuel env a b d st = (st, .error (.validation "cmd"))) ∧
    (∀ na cb, a = .str na → b = .str cb → na ≠ "" → cb ≠ "" →
       (mhas st.modules na = true →
          execute fuel env a b d st =
            (match mfind st.modules na with
             | some app => (st, callMember app cb d)
             | none => (st, .error (.typeError "app is undefined")))) ∧
       (mhas st.modules na = false →
          execute fuel env a b d st =
            (match register fuel env na true st with
             | (st', .error e) => (st', .error e)
             | (st', .ok _) =>
                 match mfind st'.modules na with
                 | some app => (st', callMember app cb d)
                 | none => (st', .error (.typeError "app is undefined"))))) ∧
    (∀ (ref : Nat) (um : UserMod) (c : String),
       mfind um.cmds c = none →
       callMember (.user ref um) c d = .error (.notAFunction c)) := by
  refine ⟨(execute_spec fuel env st a b d).1, (execute_spec fuel env st a b d).2.1,
          (execute_spec fuel env st a b d).2.2, ?_⟩
  intro ref um c hnone
  unfold callMember
  dsimp only
  rw [hnone]

theorem execute_contract_witness :
    execute 5 envT (.num 3) (.str "greet") .undefined st0 =
      (st0, .error (.validation "nextApp")) :=
  (execute_contract 5 envT st0 (.num 3) (.str "greet") .undefined).1 (by decide)

/-- Claim C6: `executeWithFallback` equals `execute` on the original arguments
when `nextApp` is already a built module (same call, same state) or when its
registration succeeds (same outcome); when the registration attempt fails, the
failure is caught and the call becomes `execute` on the configured default
triple from the post-attempt state — only that substituted attempt's failure
propagates. -/
theorem executeWithFallback_contract (fuel : Nat) (env : Env) (st : BM)
    (a b d : JsVal) :
    (hasModuleDyn st a = true →
       executeWithFallback fuel env a b d st = execute fuel env a b d st) ∧
    (hasModuleDyn st a = false →
       ∀ st' r, registerDyn fuel env a st = (st', .ok r) →
         (executeWithFallback fuel env a b d st).2 = (execute fuel env a b d st).2) ∧
    (hasModuleDyn st a = false →
       ∀ st' e, registerDyn fuel env a st = (st', .error e) →
         executeWithFallback fuel env a b d st =
           execute fuel env st.defaultApp st.defaultCmd st.defaultData st') := by
  refine ⟨?_, ?_, ?_⟩
  · intro h
    unfold executeWithFallback
    rw [h, Bool.not_true, if_neg Bool.false_ne_true]
  · intro h st' r hreg
    unfold executeWithFallback
    rw [h, Bool.not_false, if_pos rfl, hreg]
    dsimp only
    cases a with
    | undefined => rfl
    | bool bb => simp [registerDyn, bmThrow] at hreg
    | num nn => simp [registerDyn, bmThrow] at hreg
    | str na =>
        by_cases hna : na = ""
        · subst hna
          rfl
        · have hreg' : register fuel env na true st = (st', .ok r) := hreg
          by_cases hb : nonEmptyString b = true
          · obtain ⟨cb, hbeq, hcb⟩ : ∃ cb, b = .str cb ∧ cb ≠ "" := by
              cases b with
              | str cb => exact ⟨cb, rfl, by simpa [nonEmptyString] using hb⟩
              | undefined => simp [nonEmptyString] at hb
              | bool bb => simp [nonEmptyString] at hb
              | num nn => simp [nonEmptyString] at hb
            subst hbeq
            obtain ⟨m, hmr, hstored, hcont⟩ := register_true_ok hreg'
            have hhas : mhas st'.modules na = true := by
              simp [mhas, hstored]
            have h1 := ((execute_spec fuel env st' (.str na) (.str cb) d).2.2
              na cb rfl rfl hna hcb).1 hhas
            have h2 := ((execute_spec fuel env st (.str na) (.str cb) d).2.2
              na cb rfl rfl hna hcb).2 h
            rw [h1, h2, hreg', hstored]
            dsimp only
            rw [hstored]
          · have hbf : nonEmptyString b = false := Bool.eq_false_iff.mpr hb
            have h1 := (execute_spec fuel env st' (.str na) b d).2.1
              (by simp [nonEmptyString, hna]) hbf
            have h2 := (execute_spec fuel env st (.str na) b d).2.1
              (by simp [nonEmptyString, hna]) hbf
            rw [h1, h2]
  · intro h st' e hreg
    unfold executeWithFallback
    rw [h, Bool.not_false, if_pos rfl, hreg]
    dsimp only
    have E := evolves_registerDyn fuel env a st
    rw [hreg] at E
    rw [E.2.2.2.1, E.2.2.2.2.1, E.2.2.2.2.2.1]

theorem executeWithFallback_contract_witness :
    executeWithFallback 10 envT (.str "shouter") (.str "shouter")
        (.str "Hey You!!!") stFb =
      execute 10 envT stFb.defaultApp stFb.defaultCmd stFb.defaultData
        (registerDyn 10 envT (.str "shouter") stFb).1 :=
  (executeWithFallback_contract 10 envT stFb (.str "shouter") (.str "shouter")
      (.str "Hey You!!!")).2.2 (by decide)
    (registerDyn 10 envT (.str "shouter") stFb).1
    (.packageLoad "./packages/shouter.json") rfl

/-- Claim C7: `run` executes its entries strictly in list order, awaiting each
`execute` before starting the next, and stops at the first failure: after a
prefix that succeeds, a failing entry makes the whole batch return exactly
that entry's failure — its state and error — so the remaining entries are
never invoked and the first failure propagates to the caller. -/
theorem run_batch_contract (fuel : Nat) (env : Env) :
    (∀ st, run fuel env [] st = (st, .ok ())) ∧
    (∀ e rest st, run fuel env (e :: rest) st =
       (match execute fuel env e.pkg e.cmd e.data st with
        | (st', .ok _) => run fuel env rest st'
        | (st', .error err) => (st', .error err))) ∧
    (∀ pre e post st st2 err,
       (run fuel env pre st).2 = .ok () →
       execute fuel env e.pkg e.cmd e.data (run fuel env pre st).1 =
         (st2, .error err) →
       run fuel env (pre ++ e :: post) st = (st2, .error err)) := by
  refine ⟨fun st => rfl, fun e rest st => rfl, ?_⟩
  intro pre e post
  induction pre with
  | nil =>
      intro st st2 err h1 h2
      have h2' : execute fuel env e.pkg e.cmd e.data st = (st2, .error err) := h2
      show (match execute fuel env e.pkg e.cmd e.data st with
            | (st', .ok _) => run fuel env post st'
            | (st', .error err) => (st', .error err)) = (st2, .error err)
      rw [h2']
  | cons p pre' ih =>
      intro st st2 err h1 h2
      have hrunc : run fuel env (p :: pre') st =
          (match execute fuel env p.pkg p.cmd p.data st with
           | (st', .ok _) => run fuel env pre' st'
           | (st', .error err) => (st', .error err)) := rfl
      cases hp : execute fuel env p.pkg p.cmd p.data st with
      | mk stA rA =>
          cases rA with
          | error err0 =>
              rw [hrunc, hp] at h1
              cases h1
          | ok u =>
              have hrun2 : run fuel env (p :: pre') st = run fuel env pre' stA := by
                rw [hrunc, hp]
              rw [hrun2] at h1 h2
              show (match execute fuel env p.pkg p.cmd p.data st with
                    | (st', .ok _) => run fuel env (pre' ++ e :: post) st'
                    | (st', .error err) => (st', .error err)) = (st2, .error err)
              rw [hp]
              exact ih stA st2 err h1 h2

set_option maxHeartbeats 2000000 in
theorem run_batch_contract_witness :
    run 10 envT
        ([⟨.str "greeter", .str "greet", .str "John"⟩] ++
          ⟨.str "nope", .str "x", .undefined⟩ :: [⟨.str "s", .str "greet", .str "Bo"⟩])
        st0 =
      ((execute 10 envT (.str "nope") (.str "x") .undefined
          (run 10 envT [⟨.str "greeter", .str "greet", .str "John"⟩] st0).1).1,
       .error (.packageLoad "./packages/nope.json")) :=
  (run_batch_contract 10 envT).2.2
    [⟨.str "greeter", .str "greet", .str "John"⟩]
    ⟨.str "nope", .str "x", .undefined⟩
    [⟨.str "s", .str "greet", .str "Bo"⟩] st0
    (execute 10 envT (.str "nope") (.str "x") .undefined
        (run 10 envT [⟨.str "greeter", .str "greet", .str "John"⟩] st0).1).1
    (.packageLoad "./packages/nope.json") (by decide) rfl

/-- Counterexample to claim C9 as stated: supplying a non-string `defaultCmd`
without `defaultApp` does not make construction fail — no validation runs when
`defaultApp` is falsy — and an empty-string `defaultApp` (with a non-string
`defaultCmd` and a non-string `defaultData`) is likewise accepted unvalidated;
`executeWithFallback` is not enabled in either case. -/
theorem constructor_validation_counterexample :
    (mkBlackMamba { defaultCmd := .num 5 }).toOption.isSome = true ∧
    ((mkBlackMamba { defaultCmd := .num 5 }).toOption.map
        (fun st => hasNotModule st "executeWithFallback")) = some true ∧
    (mkBlackMamba { defaultApp := .str "", defaultCmd := .num 5
                    defaultData := .num 7 }).toOption.isSome = true :=
  ⟨rfl, rfl, rfl⟩

/-- Claim C9 (amended): validation of the default-fallback triple is keyed
solely on `defaultApp` being truthy. When it is, the constructor validates
`defaultApp` and `defaultCmd` — and only those — as non-empty strings,
succeeding exactly when both are, and then enables `executeWithFallback`;
`defaultData` is never validated. When `defaultApp` is absent or falsy, no
validation occurs, construction always succeeds, and `executeWithFallback` is
not enabled even if `defaultCmd` or `defaultData` were supplied. -/
theorem constructor_validation (cfg : Config) :
    (truthy cfg.defaultApp = false →
       ∃ st, mkBlackMamba cfg = .ok st ∧
         hasNotModule st "executeWithFallback" = true) ∧
    (truthy cfg.defaultApp = true →
       ((∃ st, mkBlackMamba cfg = .ok st) ↔
          nonEmptyString cfg.defaultApp = true ∧
          nonEmptyString cfg.defaultCmd = true)) ∧
    (∀ st, mkBlackMamba cfg = .ok st → truthy cfg.defaultApp = true →
       hasNotModule st "executeWithFallback" = false) := by
  refine ⟨?_, ?_, ?_⟩
  · intro h
    unfold mkBlackMamba
    rw [if_neg (by rw [h]; exact Bool.false_ne_true)]
    exact ⟨_, rfl, rfl⟩
  · intro h
    constructor
    · rintro ⟨st, hst⟩
      unfold mkBlackMamba at hst
      rw [if_pos h] at hst
      split at hst
      · cases hst
      · rename_i uA hA
        split at hst
        · cases hst
        · rename_i uA2 hA2
          split at hst
          · cases hst
          · rename_i uC hC
            split at hst
            · cases hst
            · rename_i uC2 hC2
              constructor
              · cases cA : cfg.defaultApp with
                | str sa =>
                    rw [cA] at hA2
                    dsimp only [hasValue] at hA2
                    by_cases hz : sa.length = 0
                    · rw [if_pos hz] at hA2
                      cases hA2
                    · simp only [nonEmptyString]
                      simpa using fun hh =>
                        hz ((string_length_eq_zero_iff sa).mpr hh)
                | undefined => rw [cA] at hA; simp [isString] at hA
                | bool bb => rw [cA] at hA; simp [isString] at hA
                | num nn => rw [cA] at hA; simp [isString] at hA
              · cases cC : cfg.defaultCmd with
                | str sc =>
                    rw [cC] at hC2
                    dsimp only [hasValue] at hC2
                    by_cases hz : sc.length = 0
                    · rw [if_pos hz] at hC2
                      cases hC2
                    · simp only [nonEmptyString]
                      simpa using fun hh =>
                        hz ((string_length_eq_zero_iff sc).mpr hh)
                | undefined => rw [cC] at hC; simp [isString] at hC
                | bool bb => rw [cC] at hC; simp [isString] at hC
                | num nn => rw [cC] at hC; simp [isString] at hC
    · rintro ⟨hA, hC⟩
      obtain ⟨sa, hsa, hna⟩ : ∃ sa, cfg.defaultApp = .str sa ∧ sa ≠ "" := by
        cases cA : cfg.defaultApp with
        | str sa =>
            rw [cA] at hA
            exact ⟨sa, rfl, by simpa [nonEmptyString] using hA⟩
        | undefined => rw [cA] at hA; cases hA
        | bool bb => rw [cA] at hA; simp [nonEmptyString] at hA
        | num nn => rw [cA] at hA; simp [nonEmptyString] at hA
      obtain ⟨sc, hsc, hnc⟩ : ∃ sc, cfg.defaultCmd = .str sc ∧ sc ≠ "" := by
        cases cC : cfg.defaultCmd with
        | str sc =>
            rw [cC] at hC
            exact ⟨sc, rfl, by simpa [nonEmptyString] using hC⟩
        | undefined => rw [cC] at hC; cases hC
        | bool bb => rw [cC] at hC; simp [nonEmptyString] at hC
        | num nn => rw [cC] at hC; simp [nonEmptyString] at hC
      cases hmk : mkBlackMamba cfg with
      | ok st => exact ⟨st, rfl⟩
      | error e =>
          exfalso
          unfold mkBlackMamba at hmk
          rw [if_pos h, hsa, hsc] at hmk
          dsimp only [isString, hasValue] at hmk
          rw [if_neg (fun hz => hna ((string_length_eq_zero_iff sa).mp hz)),
              if_neg (fun hz => hnc ((string_length_eq_zero_iff sc).mp hz))] at hmk
          cases hmk
  · intro st hst h
    unfold mkBlackMamba at hst
    rw [if_pos h] at hst
    split at hst
    · cases hst
    · split at hst
      · cases hst
      · split at hst
        · cases hst
        · split at hst
          · cases hst
          · cases hst
            rfl

theorem constructor_validation_witness :
    (mkBlackMamba { defaultApp := .str "greeter", defaultCmd := .str "greet"
                    defaultData := .num 7 }).toOption.isSome = true := by
  obtain ⟨st, hst⟩ := ((constructor_validation
      { defaultApp := .str "greeter", defaultCmd := .str "greet"
        defaultData := .num 7 }).2.1 (by decide)).mpr ⟨by decide, by decide⟩
  rw [hst]
  rfl

theorem mem_of_mhas {α : Type} {m : List (String × α)} {k : String}
    (h : mhas m k = true) : k ∈ m.map Prod.fst := by
  induction m with
  | nil => simp [mhas, mfind] at h
  | cons p rest ih =>
      by_cases hp : p.1 = k
      · simp [hp]
      · simp only [mhas, mfind, hp, if_false] at h
        simp only [List.map_cons, List.mem_cons]
        exact Or.inr (ih h)

/-- Claim C10: every successfully constructed instance already holds the seven
built-in entries — `getRootDirectory`, `getSourcesDirectory`,
`getPackagesDirectory`, `execute`, `register`, `hasNotModule`, `getModule` —
plus `executeWithFallback` when `defaultApp` is truthy, so `hasNotModule`
answers false for each and `listModules` lists them; `execute` on an id that is
a built module leaves the state untouched (no descriptor is ever loaded) and
dispatches the command on the stored value; and no operation removes a module
key: `register`, `execute`, `executeWithFallback`, `run`, `loadPackage` and
`import` all preserve every present module key. -/
theorem builtins_contract :
    (∀ cfg st, mkBlackMamba cfg = .ok st →
       (hasNotModule st "getRootDirectory" = false ∧
        hasNotModule st "getSourcesDirectory" = false ∧
        hasNotModule st "getPackagesDirectory" = false ∧
        hasNotModule st "execute" = false ∧
        hasNotModule st "register" = false ∧
        hasNotModule st "hasNotModule" = false ∧
        hasNotModule st "getModule" = false) ∧
       ("getRootDirectory" ∈ listModules st ∧
        "getSourcesDirectory" ∈ listModules st ∧
        "getPackagesDirectory" ∈ listModules st ∧
        "execute" ∈ listModules st ∧
        "register" ∈ listModules st ∧
        "hasNotModule" ∈ listModules st ∧
        "getModule" ∈ listModules st) ∧
       (truthy cfg.defaultApp = true →
          hasNotModule st "executeWithFallback" = false)) ∧
    (∀ fuel env st na cb d, mhas st.modules na = true →
       (execute fuel env (.str na) (.str cb) d st).1 = st) ∧
    (∀ fuel env st na cb d app, mhas st.modules na = true → na ≠ "" → cb ≠ "" →
       mfind st.modules na = some app →
       execute fuel env (.str na) (.str cb) d st = (st, callMember app cb d)) ∧
    (∀ fuel env id b st k, mhas st.modules k = true →
       mhas (register fuel env id b st).1.modules k = true) ∧
    (∀ fuel env a b d st k, mhas st.modules k = true →
       mhas (execute fuel env a b d st).1.modules k = true) ∧
    (∀ fuel env a b d st k, mhas st.modules k = true →
       mhas (executeWithFallback fuel env a b d st).1.modules k = true) ∧
    (∀ fuel env entries st k, mhas st.modules k = true →
       mhas (run fuel env entries st).1.modules k = true) ∧
    (∀ env p st k, mhas st.modules k = true →
       mhas (loadPackage env p st).1.modules k = true) ∧
    (∀ env p st k, mhas st.modules k = true →
       mhas (importSource env p st).1.modules k = true) := by
  refine ⟨?_, ?_, ?_, ?_, ?_, ?_, ?_, ?_, ?_⟩
  · intro cfg st hst
    unfold mkBlackMamba at hst
    split at hst
    · rename_i htru
      split at hst
      · cases hst
      · split at hst
        · cases hst
        · split at hst
          · cases hst
          · split at hst
            · cases hst
            · cases hst
              exact ⟨⟨rfl, rfl, rfl, rfl, rfl, rfl, rfl⟩,
                     ⟨mem_of_mhas rfl, mem_of_mhas rfl, mem_of_mhas rfl,
                      mem_of_mhas rfl, mem_of_mhas rfl, mem_of_mhas rfl,
                      mem_of_mhas rfl⟩,
                     fun _ => rfl⟩
    · rename_i htru
      cases hst
      exact ⟨⟨rfl, rfl, rfl, rfl, rfl, rfl, rfl⟩,
             ⟨mem_of_mhas rfl, mem_of_mhas rfl, mem_of_mhas rfl,
              mem_of_mhas rfl, mem_of_mhas rfl, mem_of_mhas rfl,
              mem_of_mhas rfl⟩,
             fun hcontr => absurd hcontr htru⟩
  · intro fuel env st na cb d hm
    by_cases hna : na = ""
    · subst hna
      rfl
    · by_cases hcb : cb = ""
      · subst hcb
        have h1 := (execute_spec fuel env st (.str na) (.str "") d).2.1
          (by simp [nonEmptyString, hna]) (by simp [nonEmptyString])
        rw [h1]
      · have h1 := ((execute_spec fuel env st (.str na) (.str cb) d).2.2
          na cb rfl rfl hna hcb).1 hm
        rw [h1]
        cases hf : mfind st.modules na with
        | some app => rfl
        | none => rfl
  · intro fuel env st na cb d app hm hna hcb happ
    have h1 := ((execute_spec fuel env st (.str na) (.str cb) d).2.2
      na cb rfl rfl hna hcb).1 hm
    rw [h1, happ]
  · intro fuel env id b st k hk
    exact (evolves_register fuel env id b st).2.2.2.2.2.2.2 k hk
  · intro fuel env a b d st k hk
    exact (evolves_execute fuel env a b d st).2.2.2.2.2.2.2 k hk
  · intro fuel env a b d st k hk
    exact (evolves_executeWithFallback fuel env a b d st).2.2.2.2.2.2.2 k hk
  · intro fuel env entries st k hk
    exact (evolves_run fuel env entries st).2.2.2.2.2.2.2 k hk
  · intro env p st k hk
    exact (evolves_loadPackage env p st).2.2.2.2.2.2.2 k hk
  · intro env p st k hk
    exact (evolves_importSource env p st).2.2.2.2.2.2.2 k hk

theorem builtins_contract_witness :
    hasNotModule st0 "register" = false ∧
    (execute 5 envT (.str "getModule") (.str "x") .undefined st0).1 = st0 :=
  ⟨(builtins_contract.1 {} st0 rfl).1.2.2.2.2.1,
   builtins_contract.2.1 5 envT st0 "getModule" "x" .undefined rfl⟩
